import Mathlib

/-!
Shallow embedding of the iosplit terminal application (src/main.rs).

The program spawns a child process, reads its stdout and stderr as byte
streams, and displays them in two scrollable panels.  The event loop state
(`LoopState`) mirrors the mutable locals of `main`; one iteration of the
`loop` first handles exactly one `tokio::select!` arm (`handleEvent`) and
then runs the draw closure, whose scroll-state mutations are `drawReconcile`.

Machine-integer conventions: `usize` values are modelled as `Nat`.
Rust `saturating_sub` on `usize` is exactly truncated `Nat` subtraction.
`saturating_add` and the plain `+` in the reconciliation test are modelled
as `Nat` addition: saturation/overflow at `2^64` is unreachable, because the
per-frame reconciliation clamps every offset to at most `|wrapped|`, and a
wrapped-line vector of length near `2^64` cannot exist in memory.
-/

/-- Per-panel scroll state: the mutable pair
`(stdout_scroll_offset, stdout_autoscroll)` (resp. stderr) of `main`. -/
structure PanelState where
  offset : Nat
  autoscroll : Bool
deriving DecidableEq, Repr

/-- Per-frame reconciliation of one panel, from the draw closure in `main`
(`if stdout_scroll_offset + height >= o.len() { stdout_autoscroll = true }`
followed by
`if stdout_autoscroll { stdout_scroll_offset = o.len().saturating_sub(height) }`).
`wlen` is the number of wrapped display lines, `H` the panel inner height. -/
def reconcile (wlen H : Nat) (s : PanelState) : PanelState :=
  let auto := if s.offset + H ≥ wlen then true else s.autoscroll
  let off := if auto then wlen - H else s.offset
  ⟨off, auto⟩

/-- Which panel has focus; `enum ActiveWidget` in the source. -/
inductive ActiveWidget where
  | Stdout
  | Stderr
deriving DecidableEq, Repr

/-- The `ActiveWidget::switch` method. -/
def ActiveWidget.switch : ActiveWidget → ActiveWidget
  | .Stdout => .Stderr
  | .Stderr => .Stdout

/-- Key codes distinguished by the key dispatch in `main`; `other` stands
for every `KeyCode` that falls into the `_ => {}` arm. -/
inductive Key where
  | esc
  | tab
  | up
  | down
  | pageUp
  | pageDown
  | home
  | endKey
  | other
deriving DecidableEq, Repr

/-- One outcome of the `tokio::select!`: a read on one of the child streams
(`Ok(0)` end-of-file, `Ok(n)` with the lossily decoded chunk, or `Err`),
a key event, or any other terminal event (non-key events, `Err`, `None` —
all ignored by the source). -/
inductive Event where
  | stdoutOk0
  | stdoutData (d : String)
  | stdoutErr
  | stderrOk0
  | stderrData (d : String)
  | stderrErr
  | key (k : Key)
  | otherEvent
deriving DecidableEq, Repr

/-- The mutable locals of `main` that persist across loop iterations. -/
structure LoopState where
  stdout_buf : List String
  stderr_buf : List String
  read_stdout : Bool
  read_stderr : Bool
  stdout_scroll_offset : Nat
  stderr_scroll_offset : Nat
  stdout_autoscroll : Bool
  stderr_autoscroll : Bool
  active_widget : ActiveWidget
deriving DecidableEq, Repr

/-- Initial state of the loop locals, as initialized before `loop`. -/
def initState : LoopState :=
  { stdout_buf := []
    stderr_buf := []
    read_stdout := true
    read_stderr := true
    stdout_scroll_offset := 0
    stderr_scroll_offset := 0
    stdout_autoscroll := true
    stderr_autoscroll := true
    active_widget := .Stdout }

/-- The key dispatch of `main` (the `Event::Key` match).  `P` is the
`scroll_page` value computed at the top of the iteration.  `Esc` breaks the
loop (modelled separately by `breaksLoop`), so here it leaves the state
unchanged. -/
def handleKey (P : Nat) (k : Key) (s : LoopState) : LoopState :=
  match k with
  | .esc => s
  | .tab => { s with active_widget := s.active_widget.switch }
  | .up =>
      if s.active_widget = .Stdout then
        { s with stdout_scroll_offset := s.stdout_scroll_offset - 1
                 stdout_autoscroll := false }
      else
        { s with stderr_scroll_offset := s.stderr_scroll_offset - 1
                 stderr_autoscroll := false }
  | .down =>
      if s.active_widget = .Stdout then
        { s with stdout_scroll_offset := s.stdout_scroll_offset + 1
                 stdout_autoscroll := false }
      else
        { s with stderr_scroll_offset := s.stderr_scroll_offset + 1
                 stderr_autoscroll := false }
  | .pageUp =>
      if s.active_widget = .Stdout then
        { s with stdout_scroll_offset := s.stdout_scroll_offset - P
                 stdout_autoscroll := false }
      else
        { s with stderr_scroll_offset := s.stderr_scroll_offset - P
                 stderr_autoscroll := false }
  | .pageDown =>
      if s.active_widget = .Stdout then
        { s with stdout_scroll_offset := s.stdout_scroll_offset + P
                 stdout_autoscroll := false }
      else
        { s with stderr_scroll_offset := s.stderr_scroll_offset + P
                 stderr_autoscroll := false }
  | .home =>
      if s.active_widget = .Stdout then
        { s with stdout_scroll_offset := 0
                 stdout_autoscroll := false }
      else
        { s with stderr_scroll_offset := 0
                 stderr_autoscroll := false }
  | .endKey =>
      if s.active_widget = .Stdout then
        { s with stdout_autoscroll := true }
      else
        { s with stderr_autoscroll := true }
  | .other => s

/-- One `tokio::select!` dispatch: the three arms of the select.  A read of
`Ok(0)` or `Err(_)` clears the corresponding `read_*` flag; a successful
read pushes the decoded chunk; a key event goes through the key dispatch. -/
def handleEvent (P : Nat) (e : Event) (s : LoopState) : LoopState :=
  match e with
  | .stdoutOk0 => { s with read_stdout := false }
  | .stdoutData d => { s with stdout_buf := s.stdout_buf ++ [d] }
  | .stdoutErr => { s with read_stdout := false }
  | .stderrOk0 => { s with read_stderr := false }
  | .stderrData d => { s with stderr_buf := s.stderr_buf ++ [d] }
  | .stderrErr => { s with read_stderr := false }
  | .key k => handleKey P k s
  | .otherEvent => s

/-- Whether the event makes the loop `break` (only `KeyCode::Esc`). -/
def breaksLoop : Event → Bool
  | .key .esc => true
  | _ => false

/-- Flattening of a chunk buffer, `stdout_buf.concat()` in the source. -/
def concatBuf (l : List String) : String :=
  l.foldl (fun a b => a ++ b) ""

/-- Modelled from the spec: the soft-wrap function (`textwrap::wrap` in the
source is an external crate whose code is not part of this repository).
Following the spec's wrap-layer description: hard newlines terminate a
line; between hard newlines, text is broken at whitespace where possible
and split mid-token only when a token exceeds the width `W`; an empty
input yields an empty list.  `chunksGo` splits an over-long token into
pieces of at most `W` characters. -/
def chunksGo (W : Nat) (cs : List Char) : List (List Char) :=
  if _h : cs.length ≤ W ∨ W = 0 then [cs]
  else cs.take W :: chunksGo W (cs.drop W)
termination_by cs.length
decreasing_by
  simp only [List.length_drop]
  omega

/-- Greedy line filling over tokens already cut to width at most `W`:
a token is appended to the current line when it fits with a separating
space, and otherwise starts a new line. -/
def fillGo (W : Nat) (ws : List (List Char)) (line : List Char) : List (List Char) :=
  match ws with
  | [] => [line]
  | w :: rest =>
      if line.isEmpty then fillGo W rest w
      else if line.length + 1 + w.length ≤ W then fillGo W rest (line ++ ' ' :: w)
      else line :: fillGo W rest w

/-- Modelled from the spec: soft-wrap of one newline-free segment at width
`W`: split into whitespace-separated tokens, cut over-long tokens, fill
greedily.  A segment with no tokens yields one (empty) display line. -/
def wrapLine (W : Nat) (seg : String) : List String :=
  let ws := ((seg.split fun c => c.isWhitespace).filter (fun w => w ≠ "")).map
    String.toList
  let ws := (ws.map (chunksGo W)).flatten
  if ws.isEmpty then [""] else (fillGo W ws []).map (fun l => String.mk l)

/-- Modelled from the spec: the wrap layer (`textwrap::wrap(text, W)` in
the source).  An empty input yields an empty list; otherwise hard newlines
delimit segments and each segment is soft-wrapped at width `W`. -/
def wrap (text : String) (W : Nat) : List String :=
  if text = "" then []
  else ((text.split fun c => c = '\n').map (wrapLine W)).flatten

/-- The scroll-state mutations of the draw closure: wrap both buffers at
the panel inner widths `Wo`, `We`, then reconcile each panel against the
inner height `H`. -/
def drawReconcile (Wo We H : Nat) (s : LoopState) : LoopState :=
  let olen := (wrap (concatBuf s.stdout_buf) Wo).length
  let elen := (wrap (concatBuf s.stderr_buf) We).length
  let po := reconcile olen H ⟨s.stdout_scroll_offset, s.stdout_autoscroll⟩
  let pe := reconcile elen H ⟨s.stderr_scroll_offset, s.stderr_autoscroll⟩
  { s with stdout_scroll_offset := po.offset
           stdout_autoscroll := po.autoscroll
           stderr_scroll_offset := pe.offset
           stderr_autoscroll := pe.autoscroll }

/-- Per-iteration environment: the `scroll_page` value, the panel inner
widths and height derived from the terminal size, and the select outcome. -/
structure IterInput where
  page : Nat
  wOut : Nat
  wErr : Nat
  hgt : Nat
  ev : Event
deriving Repr

/-- One full loop iteration: handle the select outcome, then (unless the
loop broke on Escape) run the draw closure's reconciliation. -/
def iterStep (i : IterInput) (s : LoopState) : LoopState :=
  if breaksLoop i.ev then s
  else drawReconcile i.wOut i.wErr i.hgt (handleEvent i.page i.ev s)

/-- Run a sequence of loop iterations. -/
def run (tr : List IterInput) (s : LoopState) : LoopState :=
  tr.foldl (fun s i => iterStep i s) s

/-- The page size computed at the top of each iteration:
`(size.height as f32 / 3.0).floor() as usize` when `terminal.size()`
succeeds, `10` otherwise.  The terminal size is `(width, height)` with
`height : u16`; for every `h < 2^16`, `h` and `3.0` are exact in `f32` and
`f32` division is correctly rounded, so `(h as f32 / 3.0).floor()` equals
the integer quotient `h / 3`, which is how it is modelled here. -/
def scroll_page (termSize : Option (Nat × Nat)) : Nat :=
  match termSize with
  | some sz => sz.2 / 3
  | none => 10

/-- Outcome of `main` before the event loop: either print the usage line
to standard error and return `Ok(())` (process exit code 0) without
spawning a child or initializing the terminal, or proceed to spawn the
command with the remaining arguments. -/
inductive StartAction where
  | usageBanner (stderrLine : String) (exitCode : Nat)
  | spawnChild (cmd : String) (cargs : List String)
deriving DecidableEq, Repr

/-- The usage line printed by `print_usage`. -/
def usageLine (arg0 : String) : String :=
  "Usage: " ++ arg0 ++ " <command> [args]"

/-- The argument check at the top of `main`: `args` is the argument vector
with `argv[0]` already removed.  Mirrors
`if args.is_empty() || (args.len() == 1 && args[0] == "-h")`. -/
def mainStartup (arg0 : String) (args : List String) : StartAction :=
  if args.isEmpty || (args.length == 1 && args.getD 0 "" == "-h") then
    .usageBanner (usageLine arg0) 0
  else
    .spawnChild (args.getD 0 "") (args.drop 1)

/-- The scroll commands of the spec's command table. -/
inductive ScrollCmd where
  | lineUp
  | lineDown
  | pageUp
  | pageDown
  | home
  | endCmd
deriving DecidableEq, Repr

/-- The spec's command table, written from the claim's words: `Nat`
subtraction is truncated, so `s.offset - 1` is `max(0, offset − 1)` and
`s.offset - P` is `max(0, offset − P)`. -/
def scrollTable (P : Nat) (c : ScrollCmd) (s : PanelState) : PanelState :=
  match c with
  | .lineUp => ⟨s.offset - 1, false⟩
  | .lineDown => ⟨s.offset + 1, false⟩
  | .pageUp => ⟨s.offset - P, false⟩
  | .pageDown => ⟨s.offset + P, false⟩
  | .home => ⟨0, false⟩
  | .endCmd => ⟨s.offset, true⟩

/-- The scroll command bound to a key, `none` for keys that are not scroll
keys. -/
def cmdOfKey : Key → Option ScrollCmd
  | .up => some .lineUp
  | .down => some .lineDown
  | .pageUp => some .pageUp
  | .pageDown => some .pageDown
  | .home => some .home
  | .endKey => some .endCmd
  | _ => none

/-- Whether a key is one of the six scroll keys. -/
def isScrollKey (k : Key) : Bool :=
  (cmdOfKey k).isSome

/-- The (offset, autoscroll) pair of the focused stream. -/
def focusedPanel (s : LoopState) : PanelState :=
  match s.active_widget with
  | .Stdout => ⟨s.stdout_scroll_offset, s.stdout_autoscroll⟩
  | .Stderr => ⟨s.stderr_scroll_offset, s.stderr_autoscroll⟩

/-- String `a` is an initial segment of string `b`. -/
def strLE (a b : String) : Prop :=
  ∃ t, a ++ t = b

/-- A concrete loop state used to instantiate universally quantified
results on a specific input. -/
def exState : LoopState :=
  { stdout_buf := ["line one\n", "line two"]
    stderr_buf := ["oops"]
    read_stdout := true
    read_stderr := true
    stdout_scroll_offset := 7
    stderr_scroll_offset := 4
    stdout_autoscroll := false
    stderr_autoscroll := true
    active_widget := .Stdout }

/-- A concrete loop state whose streams have both closed. -/
def closedState : LoopState :=
  { exState with read_stdout := false, read_stderr := false }

/-! Helper lemmas shared by the claim theorems. -/

/-- Truncated `Nat` subtraction, cast to `Int`, is `max 0` of the `Int`
subtraction. -/
theorem natSub_toInt (a b : Nat) : ((a - b : Nat) : Int) = max 0 ((a : Int) - (b : Int)) := by
  omega

/-- The reconciled autoscroll flag is the old flag OR-ed with the sticky
condition evaluated on the old offset. -/
theorem reconcile_autoscroll_eq (wlen H : Nat) (s : PanelState) :
    (reconcile wlen H s).autoscroll = (decide (s.offset + H ≥ wlen) || s.autoscroll) := by
  by_cases h : s.offset + H ≥ wlen <;> simp [reconcile, h]

/-- The reconciled offset is clamped when the reconciled flag is set and
untouched otherwise. -/
theorem reconcile_offset_eq (wlen H : Nat) (s : PanelState) :
    (reconcile wlen H s).offset =
      (if (reconcile wlen H s).autoscroll then wlen - H else s.offset) := by
  by_cases h : s.offset + H ≥ wlen <;> simp [reconcile, h]

/-- After reconciliation the offset never exceeds `wlen - H`. -/
theorem reconcile_offset_le (wlen H : Nat) (s : PanelState) :
    (reconcile wlen H s).offset ≤ wlen - H := by
  by_cases h : s.offset + H ≥ wlen <;> simp [reconcile, h]
  split <;> omega

/-- The draw closure's reconciliation only rewrites the four scroll-state
fields. -/
theorem drawReconcile_fields (Wo We H : Nat) (s : LoopState) :
    (drawReconcile Wo We H s).stdout_buf = s.stdout_buf
    ∧ (drawReconcile Wo We H s).stderr_buf = s.stderr_buf
    ∧ (drawReconcile Wo We H s).read_stdout = s.read_stdout
    ∧ (drawReconcile Wo We H s).read_stderr = s.read_stderr
    ∧ (drawReconcile Wo We H s).active_widget = s.active_widget := by
  exact ⟨rfl, rfl, rfl, rfl, rfl⟩

/-- Projections of `drawReconcile` onto the stdout panel state. -/
theorem drawReconcile_stdout_panel (Wo We H : Nat) (s : LoopState) :
    (drawReconcile Wo We H s).stdout_scroll_offset =
      (reconcile ((wrap (concatBuf s.stdout_buf) Wo).length) H
        ⟨s.stdout_scroll_offset, s.stdout_autoscroll⟩).offset := rfl

/-- Projections of `drawReconcile` onto the stderr panel state. -/
theorem drawReconcile_stderr_panel (Wo We H : Nat) (s : LoopState) :
    (drawReconcile Wo We H s).stderr_scroll_offset =
      (reconcile ((wrap (concatBuf s.stderr_buf) We).length) H
        ⟨s.stderr_scroll_offset, s.stderr_autoscroll⟩).offset := rfl

/-- The key dispatch never touches the chunk buffers, the open flags, or
the focus. -/
theorem handleKey_preserves (P : Nat) (k : Key) (s : LoopState) :
    (handleKey P k s).stdout_buf = s.stdout_buf
    ∧ (handleKey P k s).stderr_buf = s.stderr_buf
    ∧ (handleKey P k s).read_stdout = s.read_stdout
    ∧ (handleKey P k s).read_stderr = s.read_stderr := by
  cases k <;> simp only [handleKey] <;> (try constructor) <;>
    (try split) <;> simp

/-- Event handling can only turn `read_stdout` off, never on. -/
theorem handleEvent_read_stdout_mono (P : Nat) (e : Event) (s : LoopState) :
    (handleEvent P e s).read_stdout = s.read_stdout
    ∨ (handleEvent P e s).read_stdout = false := by
  cases e with
  | key k => exact Or.inl (handleKey_preserves P k s).2.2.1
  | _ => simp [handleEvent]

/-- Event handling can only turn `read_stderr` off, never on. -/
theorem handleEvent_read_stderr_mono (P : Nat) (e : Event) (s : LoopState) :
    (handleEvent P e s).read_stderr = s.read_stderr
    ∨ (handleEvent P e s).read_stderr = false := by
  cases e with
  | key k => exact Or.inl (handleKey_preserves P k s).2.2.2
  | _ => simp [handleEvent]

/-- A single loop iteration keeps `read_stdout` latched at `false`. -/
theorem iterStep_read_stdout_latch (i : IterInput) (s : LoopState)
    (h : s.read_stdout = false) : (iterStep i s).read_stdout = false := by
  unfold iterStep
  split
  · exact h
  · show (handleEvent i.page i.ev s).read_stdout = false
    rcases handleEvent_read_stdout_mono i.page i.ev s with h2 | h2 <;> simp [h2, h]

/-- A single loop iteration keeps `read_stderr` latched at `false`. -/
theorem iterStep_read_stderr_latch (i : IterInput) (s : LoopState)
    (h : s.read_stderr = false) : (iterStep i s).read_stderr = false := by
  unfold iterStep
  split
  · exact h
  · show (handleEvent i.page i.ev s).read_stderr = false
    rcases handleEvent_read_stderr_mono i.page i.ev s with h2 | h2 <;> simp [h2, h]

/-- A single loop iteration only appends to the chunk buffers. -/
theorem iterStep_buf_step (i : IterInput) (s : LoopState) :
    ((iterStep i s).stdout_buf = s.stdout_buf
      ∨ ∃ d, (iterStep i s).stdout_buf = s.stdout_buf ++ [d])
    ∧ ((iterStep i s).stderr_buf = s.stderr_buf
      ∨ ∃ d, (iterStep i s).stderr_buf = s.stderr_buf ++ [d]) := by
  unfold iterStep
  split
  · exact ⟨Or.inl rfl, Or.inl rfl⟩
  · show ((handleEvent i.page i.ev s).stdout_buf = _ ∨ _) ∧ _
    cases hev : i.ev with
    | key k =>
        exact ⟨Or.inl (handleKey_preserves i.page k s).1,
          Or.inl (handleKey_preserves i.page k s).2.1⟩
    | stdoutData d => exact ⟨Or.inr ⟨d, rfl⟩, Or.inl rfl⟩
    | stderrData d => exact ⟨Or.inl rfl, Or.inr ⟨d, rfl⟩⟩
    | _ => exact ⟨Or.inl rfl, Or.inl rfl⟩

/-- A string concatenation fold starting from `x` factors `x` out front. -/
theorem foldl_str (l : List String) (x : String) :
    l.foldl (fun a b => a ++ b) x = x ++ concatBuf l := by
  induction l generalizing x with
  | nil => simp [concatBuf]
  | cons hd tl ih =>
      show List.foldl (fun a b => a ++ b) (x ++ hd) tl = x ++ concatBuf (hd :: tl)
      rw [ih (x ++ hd)]
      have hc : concatBuf (hd :: tl) = hd ++ concatBuf tl := by
        show List.foldl (fun a b => a ++ b) ("" ++ hd) tl = _
        rw [ih ("" ++ hd), String.empty_append]
      rw [hc, String.append_assoc]

/-- Concatenating a buffer distributes over list append. -/
theorem concatBuf_append (l t : List String) :
    concatBuf (l ++ t) = concatBuf l ++ concatBuf t := by
  show (l ++ t).foldl (fun a b => a ++ b) "" = _
  rw [List.foldl_append]
  exact foldl_str t (l.foldl (fun a b => a ++ b) "")

/-- List prefixes flatten to string prefixes. -/
theorem concatBuf_mono (l1 l2 : List String) (h : l1 <+: l2) :
    strLE (concatBuf l1) (concatBuf l2) := by
  obtain ⟨t, ht⟩ := h
  exact ⟨concatBuf t, by rw [← concatBuf_append, ht]⟩

/-- Running any trace of iterations only extends the chunk buffers. -/
theorem run_buf_mono (tr : List IterInput) (s : LoopState) :
    s.stdout_buf <+: (run tr s).stdout_buf
    ∧ s.stderr_buf <+: (run tr s).stderr_buf := by
  induction tr generalizing s with
  | nil => exact ⟨List.prefix_rfl, List.prefix_rfl⟩
  | cons i tl ih =>
      have hrun : run (i :: tl) s = run tl (iterStep i s) := rfl
      have hstep := iterStep_buf_step i s
      have h1 : s.stdout_buf <+: (iterStep i s).stdout_buf := by
        rcases hstep.1 with h | ⟨d, h⟩ <;> rw [h]
        exact ⟨[d], rfl⟩
      have h2 : s.stderr_buf <+: (iterStep i s).stderr_buf := by
        rcases hstep.2 with h | ⟨d, h⟩ <;> rw [h]
        exact ⟨[d], rfl⟩
      rw [hrun]
      exact ⟨h1.trans (ih (iterStep i s)).1, h2.trans (ih (iterStep i s)).2⟩

/-! The claim theorems. -/

/-- C1: the per-frame reconciliation first runs the sticky-bottom check on
the pre-frame offset (`offset + H ≥ |wrapped|` turns autoscroll on), then
clamps the offset to `max(0, |wrapped| − H)` exactly when the resulting
autoscroll flag is set; consequently after reconciliation autoscroll
implies `offset = max(0, |wrapped| − H)`. -/
theorem c1_reconcile_two_steps (wlen H : Nat) (s : PanelState) :
    (reconcile wlen H s).autoscroll = (decide (s.offset + H ≥ wlen) || s.autoscroll)
    ∧ (reconcile wlen H s).offset =
        (if (reconcile wlen H s).autoscroll then wlen - H else s.offset)
    ∧ ((reconcile wlen H s).autoscroll = true →
        ((reconcile wlen H s).offset : Int) = max 0 ((wlen : Int) - (H : Int))) := by
  refine ⟨reconcile_autoscroll_eq wlen H s, reconcile_offset_eq wlen H s, ?_⟩
  intro ha
  have h2 := reconcile_offset_eq wlen H s
  rw [ha] at h2
  simp at h2
  rw [h2]
  exact natSub_toInt wlen H

/-- Witness for C1 at `|wrapped| = 5`, `H = 2`, state `(offset 3, no
autoscroll)`. -/
theorem c1_witness :
    (reconcile 5 2 ⟨3, false⟩).autoscroll = true
    ∧ ((reconcile 5 2 ⟨3, false⟩).offset : Int) = max 0 ((5 : Int) - (2 : Int)) :=
  ⟨by decide, (c1_reconcile_two_steps 5 2 ⟨3, false⟩).2.2 (by decide)⟩

/-- C2: after a frame's reconciliation each stream's offset lies between 0
and `max(0, |wrapped| − H)`, whatever state the scroll commands left
behind. -/
theorem c2_offset_bounds (Wo We H : Nat) (s : LoopState) :
    (0 ≤ (drawReconcile Wo We H s).stdout_scroll_offset
      ∧ ((drawReconcile Wo We H s).stdout_scroll_offset : Int)
          ≤ max 0 (((wrap (concatBuf s.stdout_buf) Wo).length : Int) - (H : Int)))
    ∧ (0 ≤ (drawReconcile Wo We H s).stderr_scroll_offset
      ∧ ((drawReconcile Wo We H s).stderr_scroll_offset : Int)
          ≤ max 0 (((wrap (concatBuf s.stderr_buf) We).length : Int) - (H : Int))) := by
  refine ⟨⟨Nat.zero_le _, ?_⟩, ⟨Nat.zero_le _, ?_⟩⟩
  · rw [drawReconcile_stdout_panel]
    have h := reconcile_offset_le ((wrap (concatBuf s.stdout_buf) Wo).length) H
      ⟨s.stdout_scroll_offset, s.stdout_autoscroll⟩
    omega
  · rw [drawReconcile_stderr_panel]
    have h := reconcile_offset_le ((wrap (concatBuf s.stderr_buf) We).length) H
      ⟨s.stderr_scroll_offset, s.stderr_autoscroll⟩
    omega

/-- C3: on the focused stream, each scroll key has exactly the effect of
the spec's command table (`scrollTable`): line up/down, page up/down by
`P`, home to 0 — each clearing autoscroll — and end turning autoscroll on
with the offset untouched. -/
theorem c3_scroll_command_table (P : Nat) (k : Key) (c : ScrollCmd)
    (s : LoopState) (h : cmdOfKey k = some c) :
    focusedPanel (handleKey P k s) = scrollTable P c (focusedPanel s) := by
  cases k <;> simp [cmdOfKey] at h <;> subst h <;>
    cases hw : s.active_widget <;>
    simp [handleKey, focusedPanel, scrollTable, hw]

/-- Witness for C3: the Up key at page size 5 on a concrete state. -/
theorem c3_witness :
    cmdOfKey Key.up = some ScrollCmd.lineUp
    ∧ focusedPanel (handleKey 5 Key.up exState) =
        scrollTable 5 ScrollCmd.lineUp (focusedPanel exState) :=
  ⟨rfl, c3_scroll_command_table 5 Key.up ScrollCmd.lineUp exState rfl⟩

/-- C4: the wrap function on an empty input (the concatenation of an empty
chunk list) yields an empty list of display lines at every width. -/
theorem c4_wrap_empty (W : Nat) :
    wrap (concatBuf []) W = [] ∧ wrap "" W = [] := by
  constructor <;> simp [wrap, concatBuf]

/-- C5: with zero arguments, or exactly one argument equal to `-h`, main
emits the usage line on standard error and returns success (exit code 0)
as `StartAction.usageBanner`, i.e. before the child is spawned or the
terminal initialized. -/
theorem c5_usage_banner (arg0 : String) :
    mainStartup arg0 [] = StartAction.usageBanner (usageLine arg0) 0
    ∧ mainStartup arg0 ["-h"] = StartAction.usageBanner (usageLine arg0) 0
    ∧ usageLine arg0 = "Usage: " ++ arg0 ++ " <command> [args]" :=
  ⟨rfl, rfl, rfl⟩

/-- C6: once a stream's open flag is false no later sequence of events
restores it, and end-of-file (`Ok(0)`) and read errors are handled
identically. -/
theorem c6_eof_latch :
    (∀ (tr : List IterInput) (s : LoopState),
        s.read_stdout = false → (run tr s).read_stdout = false)
    ∧ (∀ (tr : List IterInput) (s : LoopState),
        s.read_stderr = false → (run tr s).read_stderr = false)
    ∧ (∀ (P : Nat) (s : LoopState),
        handleEvent P Event.stdoutOk0 s = handleEvent P Event.stdoutErr s
        ∧ (handleEvent P Event.stdoutOk0 s).read_stdout = false)
    ∧ (∀ (P : Nat) (s : LoopState),
        handleEvent P Event.stderrOk0 s = handleEvent P Event.stderrErr s
        ∧ (handleEvent P Event.stderrOk0 s).read_stderr = false) := by
  refine ⟨?_, ?_, fun P s => ⟨rfl, rfl⟩, fun P s => ⟨rfl, rfl⟩⟩
  · intro tr
    induction tr with
    | nil => intro s h; exact h
    | cons i tl ih =>
        intro s h
        exact ih (iterStep i s) (iterStep_read_stdout_latch i s h)
  · intro tr
    induction tr with
    | nil => intro s h; exact h
    | cons i tl ih =>
        intro s h
        exact ih (iterStep i s) (iterStep_read_stderr_latch i s h)

/-- Witness for C6: a closed stdout stream stays closed across a concrete
two-iteration trace. -/
theorem c6_witness :
    closedState.read_stdout = false
    ∧ (run [⟨3, 10, 10, 5, Event.stdoutData "late"⟩,
            ⟨3, 10, 10, 5, Event.key Key.endKey⟩] closedState).read_stdout = false :=
  ⟨rfl,
    c6_eof_latch.1 [⟨3, 10, 10, 5, Event.stdoutData "late"⟩,
      ⟨3, 10, 10, 5, Event.key Key.endKey⟩] closedState rfl⟩

/-- C7: the chunk buffers are append-only: across any run of iterations
the earlier chunk list is a list-prefix of the later one and the earlier
concatenation is an initial segment of the later one. -/
theorem c7_append_only (tr : List IterInput) (s : LoopState) :
    s.stdout_buf <+: (run tr s).stdout_buf
    ∧ s.stderr_buf <+: (run tr s).stderr_buf
    ∧ strLE (concatBuf s.stdout_buf) (concatBuf ((run tr s).stdout_buf))
    ∧ strLE (concatBuf s.stderr_buf) (concatBuf ((run tr s).stderr_buf)) :=
  ⟨(run_buf_mono tr s).1, (run_buf_mono tr s).2,
    concatBuf_mono _ _ (run_buf_mono tr s).1,
    concatBuf_mono _ _ (run_buf_mono tr s).2⟩

/-- C8: a scroll key event touches at most the focused stream's scroll
state: both chunk buffers, both open flags and the focus are unchanged,
and the non-focused stream's offset and autoscroll are unchanged. -/
theorem c8_focus_exclusive (P : Nat) (k : Key) (s : LoopState)
    (h : isScrollKey k = true) :
    (handleEvent P (Event.key k) s).stdout_buf = s.stdout_buf
    ∧ (handleEvent P (Event.key k) s).stderr_buf = s.stderr_buf
    ∧ (handleEvent P (Event.key k) s).read_stdout = s.read_stdout
    ∧ (handleEvent P (Event.key k) s).read_stderr = s.read_stderr
    ∧ (handleEvent P (Event.key k) s).active_widget = s.active_widget
    ∧ (s.active_widget = ActiveWidget.Stdout →
        (handleEvent P (Event.key k) s).stderr_scroll_offset = s.stderr_scroll_offset
        ∧ (handleEvent P (Event.key k) s).stderr_autoscroll = s.stderr_autoscroll)
    ∧ (s.active_widget = ActiveWidget.Stderr →
        (handleEvent P (Event.key k) s).stdout_scroll_offset = s.stdout_scroll_offset
        ∧ (handleEvent P (Event.key k) s).stdout_autoscroll = s.stdout_autoscroll) := by
  cases k <;> first
    | exact Bool.noConfusion h
    | (cases hw : s.active_widget <;>
        refine ⟨?_, ?_, ?_, ?_, ?_, ?_, ?_⟩ <;>
        simp [handleEvent, handleKey, hw])

/-- Witness for C8: the Down key on a concrete state focused on stdout. -/
theorem c8_witness :
    (handleEvent 5 (Event.key Key.down) exState).stdout_buf = exState.stdout_buf
    ∧ (handleEvent 5 (Event.key Key.down) exState).stderr_buf = exState.stderr_buf
    ∧ (handleEvent 5 (Event.key Key.down) exState).read_stdout = exState.read_stdout
    ∧ (handleEvent 5 (Event.key Key.down) exState).read_stderr = exState.read_stderr
    ∧ (handleEvent 5 (Event.key Key.down) exState).active_widget = exState.active_widget
    ∧ (exState.active_widget = ActiveWidget.Stdout →
        (handleEvent 5 (Event.key Key.down) exState).stderr_scroll_offset
            = exState.stderr_scroll_offset
        ∧ (handleEvent 5 (Event.key Key.down) exState).stderr_autoscroll
            = exState.stderr_autoscroll)
    ∧ (exState.active_widget = ActiveWidget.Stderr →
        (handleEvent 5 (Event.key Key.down) exState).stdout_scroll_offset
            = exState.stdout_scroll_offset
        ∧ (handleEvent 5 (Event.key Key.down) exState).stdout_autoscroll
            = exState.stdout_autoscroll) :=
  c8_focus_exclusive 5 Key.down exState rfl

/-- C9: the page size is `height / 3` when the terminal size is known and
10 otherwise; at height 9 it is 3. -/
theorem c9_scroll_page :
    (∀ w h : Nat, scroll_page (some (w, h)) = h / 3)
    ∧ scroll_page none = 10
    ∧ scroll_page (some (80, 9)) = 3 :=
  ⟨fun _ _ => rfl, rfl, rfl⟩

/-- C10: when the wrapped content fits the panel (`|wrapped| ≤ H`),
reconciliation turns autoscroll on and sets the offset to 0, for every
prior scroll state. -/
theorem c10_fits_forces_autoscroll (wlen H : Nat) (s : PanelState)
    (h : wlen ≤ H) :
    (reconcile wlen H s).autoscroll = true ∧ (reconcile wlen H s).offset = 0 := by
  have hc : s.offset + H ≥ wlen := le_trans h (Nat.le_add_left H s.offset)
  have ha : (reconcile wlen H s).autoscroll = true := by
    rw [reconcile_autoscroll_eq]
    simp [hc]
  refine ⟨ha, ?_⟩
  have h2 := reconcile_offset_eq wlen H s
  rw [ha] at h2
  simp at h2
  rw [h2]
  omega

/-- Witness for C10 at `|wrapped| = 1`, `H = 5`, state `(offset 4, no
autoscroll)`. -/
theorem c10_witness :
    (1 : Nat) ≤ 5
    ∧ (reconcile 1 5 ⟨4, false⟩).autoscroll = true
    ∧ (reconcile 1 5 ⟨4, false⟩).offset = 0 :=
  ⟨by decide, (c10_fits_forces_autoscroll 1 5 ⟨4, false⟩ (by decide)).1,
    (c10_fits_forces_autoscroll 1 5 ⟨4, false⟩ (by decide)).2⟩
